import Mathlib

/-!
Verification of the crawl engine of the `data_security` repository
(`src/crawler/web_crawler.py` and `src/crawler/get_data.py`) against its
natural-language specification.

The Python code is shallowly embedded: the HTTP transport, the HTML parser
and the random source are parameters (they are external capabilities in the
spec), while the control flow of `make_request`, `crawl_page`, `crawl_site`,
`crawl_paginated_data` and `save_results` is translated statement by
statement.  Side effects that the claims talk about (sleeps, fetch attempts,
directory creation, file writes) are made visible as explicit traces.
-/

namespace DataSecurity

/-- Python's substring test `pat in s` for strings. -/
def containsStr (s pat : String) : Bool :=
  (List.range (s.data.length + 1)).any (fun i => pat.data.isPrefixOf (s.data.drop i))

/-! ## Site-wide crawl (`web_crawler.py`, `WebCrawler.crawl_site`)

The frontier state carries, besides the three collections the Python code
keeps (`visited_urls`, `pages_to_visit`, `crawled_pages`), a log of the URLs
passed to `crawl_page`, so that claims about fetch attempts can be stated.
`pages_to_visit` is a Python `set`; it is modelled as a duplicate-free list
together with a caller-supplied selection function `pick` that chooses which
element `set.pop()` removes (the order is unspecified in the source). -/

structure SiteState where
  visited : List String
  pending : List String
  collected : List (String × List String)
  fetchLog : List String
deriving Repr, DecidableEq

/-- `set.add`: insert if absent (position in the list is irrelevant because
`pick` may select any index). -/
def insertPending (pending : List String) (url : String) : List String :=
  if url ∈ pending then pending else pending ++ [url]

/-- The in-scope test exactly as `crawl_site` performs it (lines 185-191):
the allowed-domain substrings are tested against the FULL url string
(`domain in url`), and each exclusion pattern is searched in the full url
string.  Patterns are abstract: `search` is the `re.search` capability. -/
def inScopeSite {P : Type} (allowedDomains : List String) (excludePatterns : List P)
    (search : P → String → Bool) (url : String) : Bool :=
  (allowedDomains.any fun d => containsStr url d) &&
    !(excludePatterns.any fun p => search p url)

/-- Lines 201-204 of `crawl_site`: add every outbound link that is not
already visited to the pending set. -/
def addLinks (visited pending links : List String) : List String :=
  links.foldl (fun p l => if l ∈ visited then p else insertPending p l) pending

/-- The index `pick` chooses for `pages_to_visit.pop()` (reduced modulo the
size so that every selection function is meaningful). -/
def popIdx (pick : List String → Nat) (pending : List String) : Nat :=
  pick pending % pending.length

/-- The URL `pages_to_visit.pop()` returns. -/
def popUrl (pick : List String → Nat) (pending : List String) : String :=
  pending.getD (popIdx pick pending) ""

/-- The pending set after `pages_to_visit.pop()`. -/
def popRest (pick : List String → Nat) (pending : List String) : List String :=
  pending.eraseIdx (popIdx pick pending)

/-- The body of one `while` iteration of `crawl_site` (lines 179-207), after
the loop guard has passed: pop a URL chosen by `pick` from the pending set,
discard it when already visited or out of scope, otherwise fetch it
(`web url` is `crawl_page(url)`: `none` on transport or parse failure,
`some links` on success; only the outbound links matter to the claims, and
they are already absolute because `crawl_page` resolves them). -/
def siteStep {P : Type} (web : String → Option (List String))
    (allowedDomains : List String) (excludePatterns : List P)
    (search : P → String → Bool) (pick : List String → Nat)
    (s : SiteState) : SiteState :=
  if popUrl pick s.pending ∈ s.visited then { s with pending := popRest pick s.pending }
  else if !(inScopeSite allowedDomains excludePatterns search (popUrl pick s.pending)) then
    { s with pending := popRest pick s.pending }
  else
    match web (popUrl pick s.pending) with
    | none =>
      { s with pending := popRest pick s.pending
               fetchLog := s.fetchLog ++ [popUrl pick s.pending] }
    | some links =>
      { visited := s.visited ++ [popUrl pick s.pending]
        pending := addLinks (s.visited ++ [popUrl pick s.pending])
          (popRest pick s.pending) links
        collected := s.collected ++ [(popUrl pick s.pending, links)]
        fetchLog := s.fetchLog ++ [popUrl pick s.pending] }

/-- The `while pages_to_visit and len(crawled_pages) < max_pages` loop of
`crawl_site`, fuel-bounded. -/
def crawlSiteLoop {P : Type} (web : String → Option (List String))
    (allowedDomains : List String) (excludePatterns : List P)
    (search : P → String → Bool) (pick : List String → Nat)
    (maxPages : Nat) : Nat → SiteState → SiteState
  | 0, s => s
  | fuel + 1, s =>
    if s.pending.isEmpty || !(s.collected.length < maxPages) then s
    else
      crawlSiteLoop web allowedDomains excludePatterns search pick maxPages fuel
        (siteStep web allowedDomains excludePatterns search pick s)

/-- Initial frontier state: `pending = {startURL}`, everything else empty. -/
def initSiteState (startUrl : String) : SiteState :=
  { visited := [], pending := [startUrl], collected := [], fetchLog := [] }

/-- `crawl_site`, run with enough fuel for any outcome the claims examine;
properties below are proved for EVERY fuel, so the bound is immaterial. -/
def crawl_site {P : Type} (web : String → Option (List String))
    (allowedDomains : List String) (excludePatterns : List P)
    (search : P → String → Bool) (pick : List String → Nat)
    (maxPages fuel : Nat) (startUrl : String) : SiteState :=
  crawlSiteLoop web allowedDomains excludePatterns search pick maxPages fuel
    (initSiteState startUrl)

/-! ## Paginated crawl (`get_data.py`, `WebCrawler.crawl_paginated_data`,
parameter-driven variant: `page_param` given, `next_button_selector = None`) -/

/-- A parsed URL as `urlparse` presents it to `crawl_paginated_data`:
scheme, netloc, path, the query as an ordered key/value list (`parse_qsl`),
fragment. -/
structure PUrl where
  scheme : String
  netloc : String
  path : String
  query : List (String × String)
  frag : String
deriving Repr, DecidableEq

/-- `urlencode` on an ordered mapping (percent-escaping is irrelevant to the
claims; keys and values here are already plain). -/
def encodeQuery (q : List (String × String)) : String :=
  String.intercalate "&" (q.map fun p => p.1 ++ "=" ++ p.2)

/-- The url string `urlunparse` rebuilds; exclusion patterns are searched in
this string. -/
def renderUrl (u : PUrl) : String :=
  u.scheme ++ "://" ++ u.netloc ++ u.path ++
    (if u.query.isEmpty then "" else "?" ++ encodeQuery u.query) ++
    (if u.frag = "" then "" else "#" ++ u.frag)

/-- `dict` assignment `m[k] = v`: update in place if the key is present,
append otherwise. -/
def dictInsert (m : List (String × String)) (k v : String) :
    List (String × String) :=
  if m.any (fun p => p.1 = k) then
    m.map (fun p => if p.1 = k then (k, v) else p)
  else m ++ [(k, v)]

/-- `dict(parse_qsl(query))`: first occurrence fixes a key's position, the
last occurrence supplies its value. -/
def buildDict (l : List (String × String)) : List (String × String) :=
  l.foldl (fun m p => dictInsert m p.1 p.2) []

/-- Python's `int()` on a decimal string, restricted to the nonnegative
values a page parameter can carry: `none` models the `ValueError` raised on
a non-numeric value. -/
def digitsToNat (acc : Nat) : List Char → Option Nat
  | [] => some acc
  | c :: cs => if c.isDigit then digitsToNat (acc * 10 + (c.toNat - 48)) cs else none

/-- `int(s)` for a page-parameter value. -/
def strToNat? (s : String) : Option Nat :=
  if s.data.isEmpty then none else digitsToNat 0 s.data

/-- Lines 149-160 of `get_data.py`: construct the next page's URL by
incrementing the named query parameter.  `none` models the uncaught
`ValueError` that `int()` raises on a non-numeric existing value. -/
def nextPageUrl (pageParam : String) (u : PUrl) : Option PUrl :=
  match (buildDict u.query).find? (fun p => p.1 = pageParam) with
  | none =>
    some { u with query := dictInsert (buildDict u.query) pageParam (toString (1 + 1)) }
  | some kv =>
    match strToNat? kv.2 with
    | none => none
    | some n =>
      some { u with query := dictInsert (buildDict u.query) pageParam (toString (n + 1)) }

/-- Why the `while True` loop of `crawl_paginated_data` ended. -/
inductive StopReason where
  | fetchFail   -- `get_soup` returned `None`
  | noData      -- the data selector matched no element
  | budget      -- `page_count >= max_pages`
  | offDomain   -- next url's netloc matched no allowed domain
  | excluded    -- next url matched an exclusion pattern
  | fuelOut     -- artifact of the fuel bound, unreachable from `crawl_paginated_data`
deriving Repr, DecidableEq

/-- Result of a paginated run: the `crawled_data` list (source URL plus the
extracted elements of each page), the fetch log, and the reason the loop
stopped.  The whole result is `none` when the run dies on the `int()`
`ValueError` (the Python function then returns nothing at all). -/
structure PagResult where
  collected : List (PUrl × List String)
  fetchLog : List PUrl
  stop : StopReason
deriving Repr, DecidableEq

/-- The `while True` loop of `crawl_paginated_data` (lines 113-183),
parameter-driven variant.  `fetch u` models `get_soup` + `select`: `none` on
transport failure, `some elems` with the selected elements otherwise. -/
def crawlPagLoop {P : Type} (fetch : PUrl → Option (List String))
    (pageParam : String) (allowedDomains : List String)
    (excludePatterns : List P) (search : P → String → Bool) (maxPages : Nat) :
    Nat → PUrl → Nat → List (PUrl × List String) → List PUrl → Option PagResult
  | 0, _, _, acc, log => some ⟨acc, log, .fuelOut⟩
  | fuel + 1, currentUrl, pageCount, acc, log =>
    match fetch currentUrl with
    | none => some ⟨acc, log ++ [currentUrl], .fetchFail⟩
    | some elems =>
      if elems.isEmpty then some ⟨acc, log ++ [currentUrl], .noData⟩
      else if maxPages ≤ pageCount + 1 then
        some ⟨acc ++ [(currentUrl, elems)], log ++ [currentUrl], .budget⟩
      else
        match nextPageUrl pageParam currentUrl with
        | none => none
        | some nxt =>
          if allowedDomains.any (fun d => containsStr nxt.netloc d) then
            if excludePatterns.any (fun p => search p (renderUrl nxt)) then
              some ⟨acc ++ [(currentUrl, elems)], log ++ [currentUrl], .excluded⟩
            else
              crawlPagLoop fetch pageParam allowedDomains excludePatterns search
                maxPages fuel nxt (pageCount + 1) (acc ++ [(currentUrl, elems)])
                (log ++ [currentUrl])
          else some ⟨acc ++ [(currentUrl, elems)], log ++ [currentUrl], .offDomain⟩

/-- `crawl_paginated_data` (parameter-driven variant): every loop pass
increments `page_count`, so `maxPages + 1` fuel always outlasts the loop. -/
def crawl_paginated_data {P : Type} (fetch : PUrl → Option (List String))
    (pageParam : String) (allowedDomains : List String)
    (excludePatterns : List P) (search : P → String → Bool)
    (maxPages : Nat) (startUrl : PUrl) : Option PagResult :=
  crawlPagLoop fetch pageParam allowedDomains excludePatterns search maxPages
    (maxPages + 1) startUrl 0 [] []

/-! ## `make_request` (both files)

`rand : Nat → Nat` is the process random stream, read at successive
positions; `fetch attempt` is the transport capability for the given attempt
(`none` = `requests.exceptions.RequestException`, which covers connection
errors, timeouts and the `raise_for_status` of a non-success status).
The trace records how many attempts ran, the argument of every
`time.sleep`, and the header/proxy random draw each attempt actually used. -/

structure ReqTrace where
  attempts : Nat
  sleeps : List Nat
  headerDraws : List Nat
  proxyDraws : List Nat
  result : Option Nat
deriving Repr, DecidableEq

/-- The `for attempt in range(max_retries)` loop of
`web_crawler.py::make_request` (lines 87-106), iterating over the list of
attempt numbers.  `hdr`/`pxy` are the header and proxy randomness: they were
drawn BEFORE the loop (lines 84-85) and are therefore the same for every
attempt.  Falling off the end of the loop returns `None`. -/
def wcRequestLoop (fetch : Nat → Option Nat) (maxRetries delay hdr pxy : Nat) :
    List Nat → ReqTrace
  | [] => ⟨0, [], [], [], none⟩
  | attempt :: rest =>
    match fetch attempt with
    | some r => ⟨1, [], [hdr], [pxy], some r⟩
    | none =>
      if attempt < maxRetries - 1 then
        let t := wcRequestLoop fetch maxRetries delay hdr pxy rest
        ⟨t.attempts + 1, delay * (attempt + 1) :: t.sleeps,
          hdr :: t.headerDraws, pxy :: t.proxyDraws, t.result⟩
      else ⟨1, [], [hdr], [pxy], none⟩

/-- `web_crawler.py::make_request`: headers are randomized once (`rand 0`)
and the proxy is chosen once (`rand 1`), before the retry loop. -/
def make_request_wc (rand : Nat → Nat) (fetch : Nat → Option Nat)
    (maxRetries delay : Nat) : ReqTrace :=
  wcRequestLoop fetch maxRetries delay (rand 0) (rand 1) (List.range maxRetries)

/-- The retry loop of `get_data.py::make_request` (lines 59-76): it sleeps
after EVERY failed attempt, the last one included, and returns `None` only
after the loop ends. -/
def gdRequestLoop (fetch : Nat → Option Nat) (delay hdr pxy : Nat) :
    List Nat → ReqTrace
  | [] => ⟨0, [], [], [], none⟩
  | attempt :: rest =>
    match fetch attempt with
    | some r => ⟨1, [], [hdr], [pxy], some r⟩
    | none =>
      let t := gdRequestLoop fetch delay hdr pxy rest
      ⟨t.attempts + 1, delay * (attempt + 1) :: t.sleeps,
        hdr :: t.headerDraws, pxy :: t.proxyDraws, t.result⟩

/-- `get_data.py::make_request`: same once-before-the-loop randomization. -/
def make_request_gd (rand : Nat → Nat) (fetch : Nat → Option Nat)
    (maxRetries delay : Nat) : ReqTrace :=
  gdRequestLoop fetch delay (rand 0) (rand 1) (List.range maxRetries)

/-- Modelled from the spec (§4.1): "Each attempt uses a freshly randomized
header set … chosen independently per attempt" — attempt `i` would consume a
fresh position of the random stream, so over `n` attempts the header draws
would be `rand 0, rand 1, …, rand (n-1)`. -/
def freshHeaderDraws (rand : Nat → Nat) (attempts : Nat) : List Nat :=
  (List.range attempts).map rand

/-! ## `crawl_page` (`web_crawler.py`, lines 108-144) -/

/-- What the markup-extraction capability returns for a body (§6): title and
outbound links (the other Page fields play no role in the claims). -/
structure ParsedDoc where
  title : String
  links : List String
deriving Repr, DecidableEq

structure PageInfo where
  url : String
  title : String
  links : List String
deriving Repr, DecidableEq

/-- `crawl_page`: `transport` is `make_request`'s outcome (`none` after
exhausted retries), `parse` the BeautifulSoup extraction (`none` when the
`try` block raises), `join` the `urljoin` resolution capability.  Both
failure paths `return None`. -/
def crawl_page (url : String) (transport : Option String)
    (parse : String → Option ParsedDoc) (join : String → String → String) :
    Option PageInfo :=
  match transport with
  | none => none
  | some body =>
    match parse body with
    | none => none
    | some doc => some ⟨url, doc.title, doc.links.map (join url)⟩

/-! ## `save_results` (both files, identical structure) -/

/-- Observable I/O of `save_results`, in program order. -/
inductive IoOp where
  | mkdirOp (dir : String)
  | writeOp (file : String)
deriving Repr, DecidableEq

/-- `save_results` (`web_crawler.py` lines 211-248, `get_data.py` lines
185-216): the output directory is created FIRST (line 223 / 191), then the
format is dispatched; an unsupported format raises `ValueError`
(`Except.error`) after the `mkdir` but before any file write. -/
def save_results (outputDir fmt timestamp : String) :
    List IoOp × Except String Unit :=
  let ops := [IoOp.mkdirOp outputDir]
  if fmt = "json" then
    (ops ++ [IoOp.writeOp (outputDir ++ "/crawl_results_" ++ timestamp ++ ".json")],
      Except.ok ())
  else if fmt = "csv" then
    (ops ++ [IoOp.writeOp (outputDir ++ "/crawl_results_" ++ timestamp ++ ".csv")],
      Except.ok ())
  else (ops, Except.error ("Unsupported output format: " ++ fmt))

/-! ## Spec-side definitions and concrete instances used by the claims -/

/-- Drop everything up to and including the `://` scheme separator. -/
def dropSchemeSep : List Char → Option (List Char)
  | [] => none
  | ':' :: '/' :: '/' :: rest => some rest
  | _ :: rest => dropSchemeSep rest

/-- Modelled from the spec (§4.3, `ScopePolicy`): "host(candidateURL)" — the
component after `scheme://` and before the first `/`, `?` or `#`.  Used only
to compare the spec's wording with what `crawl_site` actually computes. -/
def urlHost (url : String) : String :=
  match dropSchemeSep url.data with
  | none => ""
  | some rest =>
    String.mk (rest.takeWhile fun c => c ≠ '/' && c ≠ '?' && c ≠ '#')

/-- The in-scope test exactly as the spec words it for `ScopePolicy`:
allowed-domain substrings are tested against the HOST of the candidate URL. -/
def inScopeSpec {P : Type} (allowedDomains : List String) (excludePatterns : List P)
    (search : P → String → Bool) (url : String) : Bool :=
  (allowedDomains.any fun d => containsStr (urlHost url) d) &&
    !(excludePatterns.any fun p => search p url)

/-- The frontier invariant of §3 (`FrontierState`): the pending set holds no
duplicates, `visited ∩ pending = ∅`, no URL appears twice among the source
URLs of the collected pages, and every collected URL has been visited. -/
def SiteInv (s : SiteState) : Prop :=
  s.pending.Nodup ∧
  (∀ u, u ∈ s.visited → u ∉ s.pending) ∧
  (s.collected.map Prod.fst).Nodup ∧
  (∀ c, c ∈ s.collected → c.1 ∈ s.visited)

/-- Number of pages a paginated run hands back to the caller (`0` when the
run dies on an exception and returns nothing). -/
def pagCollectedLen (r : Option PagResult) : Nat :=
  (r.map fun x => x.collected.length).getD 0

/-- A `re.search` capability for runs whose exclusion-pattern list is empty:
its value is irrelevant there. -/
def searchNone : String → String → Bool := fun _ _ => false

/-- A pop-selection function: always remove the first element of the pending
set (one admissible behavior of Python's `set.pop`). -/
def pick0 : List String → Nat := fun _ => 0

/-- Scenario site of C1/C2: the start page links to itself and to 5 distinct
pages; the 5 leaf pages have no outbound links. -/
def scenarioWeb : String → Option (List String)
  | "http://s.com/" => some ["http://s.com/", "http://s.com/1", "http://s.com/2",
      "http://s.com/3", "http://s.com/4", "http://s.com/5"]
  | "http://s.com/1" => some []
  | "http://s.com/2" => some []
  | "http://s.com/3" => some []
  | "http://s.com/4" => some []
  | "http://s.com/5" => some []
  | _ => none

/-- Scenario site of C8: the start page links to `a` (unreachable) and `b`;
page `b` links to `a` again. -/
def refetchWeb : String → Option (List String)
  | "http://s.com/" => some ["http://s.com/a", "http://s.com/b"]
  | "http://s.com/b" => some ["http://s.com/a"]
  | _ => none

/-- Start URL of the paginated scenarios: `http://s.com/list?page=1&x=y`. -/
def pagStartUrl : PUrl :=
  ⟨"http", "s.com", "/list", [("page", "1"), ("x", "y")], ""⟩

/-- A fetch capability whose every page yields one extracted element. -/
def fetchOneElem : PUrl → Option (List String) := fun _ => some ["e"]

/-- A fetch capability whose pages load fine but whose data selector matches
nothing. -/
def fetchNoElem : PUrl → Option (List String) := fun _ => some []

/-- A transport endpoint whose every attempt fails. -/
def failingEndpoint : Nat → Option Nat := fun _ => none

/-! ## Helper lemmas about the frontier -/

theorem mem_insertPending {p : List String} {l u : String}
    (h : u ∈ insertPending p l) : u ∈ p ∨ u = l := by
  unfold insertPending at h
  split at h
  · exact Or.inl h
  · rcases List.mem_append.1 h with h | h
    · exact Or.inl h
    · exact Or.inr (List.mem_singleton.1 h)

theorem insertPending_nodup {p : List String} {l : String} (h : p.Nodup) :
    (insertPending p l).Nodup := by
  unfold insertPending
  split
  · exact h
  · next hl =>
    simp only [List.nodup_append, List.nodup_cons, List.not_mem_nil,
      not_false_iff, List.nodup_nil, and_true, true_and]
    exact ⟨h, fun a ha hmem => hl ((List.mem_singleton.1 hmem) ▸ ha)⟩

theorem addLinks_cons (vis p : List String) (a : String) (as : List String) :
    addLinks vis p (a :: as) =
      addLinks vis (if a ∈ vis then p else insertPending p a) as := rfl

theorem mem_addLinks {vis links p : List String} {u : String}
    (h : u ∈ addLinks vis p links) : u ∈ p ∨ (u ∈ links ∧ u ∉ vis) := by
  induction links generalizing p with
  | nil => exact Or.inl h
  | cons a as ih =>
    rw [addLinks_cons] at h
    rcases ih h with h' | h'
    · split at h'
      · exact Or.inl h'
      · next ha =>
        rcases mem_insertPending h' with h'' | h''
        · exact Or.inl h''
        · exact Or.inr ⟨h'' ▸ List.mem_cons_self a as, h'' ▸ ha⟩
    · exact Or.inr ⟨List.mem_cons_of_mem a h'.1, h'.2⟩

theorem addLinks_nodup {vis links p : List String} (h : p.Nodup) :
    (addLinks vis p links).Nodup := by
  induction links generalizing p with
  | nil => exact h
  | cons a as ih =>
    rw [addLinks_cons]
    split
    · exact ih h
    · exact ih (insertPending_nodup h)

theorem popRest_subset {pick : List String → Nat} {pending : List String}
    {x : String} (h : x ∈ popRest pick pending) : x ∈ pending :=
  (List.eraseIdx_sublist pending (popIdx pick pending)).subset h

theorem popRest_nodup {pick : List String → Nat} {pending : List String}
    (h : pending.Nodup) : (popRest pick pending).Nodup :=
  h.sublist (List.eraseIdx_sublist pending (popIdx pick pending))

theorem popUrl_not_mem_popRest {pick : List String → Nat} {pending : List String}
    (h : pending.Nodup) : popUrl pick pending ∉ popRest pick pending := by
  rcases Nat.eq_zero_or_pos pending.length with h0 | hpos
  · rw [List.length_eq_zero.mp h0]
    exact List.not_mem_nil _
  · have hi : popIdx pick pending < pending.length := Nat.mod_lt _ hpos
    unfold popUrl popRest
    rw [List.getD_eq_getElem _ _ hi, ← h.erase_getElem _ hi]
    exact fun hmem => ((h.mem_erase_iff).1 hmem).1 rfl

/-- One `crawl_site` loop iteration preserves the frontier invariant. -/
theorem siteStep_inv {P : Type} (web : String → Option (List String))
    (ad : List String) (ep : List P) (search : P → String → Bool)
    (pick : List String → Nat) {s : SiteState} (h : SiteInv s) :
    SiteInv (siteStep web ad ep search pick s) := by
  obtain ⟨hnd, hdisj, hcol, hsub⟩ := h
  unfold siteStep
  split
  · exact ⟨popRest_nodup hnd, fun u hu hup => hdisj u hu (popRest_subset hup),
      hcol, hsub⟩
  next hvis =>
    split
    · exact ⟨popRest_nodup hnd, fun u hu hup => hdisj u hu (popRest_subset hup),
        hcol, hsub⟩
    · split
      · exact ⟨popRest_nodup hnd, fun u hu hup => hdisj u hu (popRest_subset hup),
          hcol, hsub⟩
      next links _ =>
        refine ⟨addLinks_nodup (popRest_nodup hnd), ?_, ?_, ?_⟩
        · intro u hu hup
          rcases mem_addLinks hup with hup' | hup'
          · rcases List.mem_append.1 hu with hu' | hu'
            · exact hdisj u hu' (popRest_subset hup')
            · exact (List.mem_singleton.1 hu' ▸ popUrl_not_mem_popRest hnd) hup'
          · exact hup'.2 hu
        · simp only [List.map_append, List.map_cons, List.map_nil]
          rw [List.nodup_append]
          refine ⟨hcol, List.nodup_singleton _, ?_⟩
          intro a ha hmem
          rw [List.mem_singleton] at hmem
          subst hmem
          rcases List.mem_map.1 ha with ⟨c, hc, hc1⟩
          exact hvis (hc1 ▸ hsub c hc)
        · intro c hc
          rcases List.mem_append.1 hc with hc' | hc'
          · exact List.mem_append.2 (Or.inl (hsub c hc'))
          · rw [List.mem_singleton.1 hc']
            exact List.mem_append.2 (Or.inr (List.mem_singleton.2 rfl))

/-- The whole loop preserves the frontier invariant. -/
theorem crawlSiteLoop_inv {P : Type} (web : String → Option (List String))
    (ad : List String) (ep : List P) (search : P → String → Bool)
    (pick : List String → Nat) (maxPages : Nat) :
    ∀ (fuel : Nat) (s : SiteState), SiteInv s →
      SiteInv (crawlSiteLoop web ad ep search pick maxPages fuel s) := by
  intro fuel
  induction fuel with
  | zero => intro s h; exact h
  | succ n ih =>
    intro s h
    rw [crawlSiteLoop]
    split
    · exact h
    · exact ih _ (siteStep_inv web ad ep search pick h)

/-- The initial frontier state satisfies the invariant. -/
theorem initSiteState_inv (startUrl : String) : SiteInv (initSiteState startUrl) := by
  refine ⟨List.nodup_singleton _, ?_, List.nodup_nil, ?_⟩
  · intro u hu
    exact absurd hu (List.not_mem_nil u)
  · intro c hc
    exact absurd hc (List.not_mem_nil c)

/-- Any state predicate preserved by the loop body (given the budget half of
the loop guard) is preserved by the whole loop. -/
theorem crawlSiteLoop_preserves {P : Type} (web : String → Option (List String))
    (ad : List String) (ep : List P) (search : P → String → Bool)
    (pick : List String → Nat) (maxPages : Nat) (Q : SiteState → Prop)
    (hstep : ∀ s, s.collected.length < maxPages → Q s →
      Q (siteStep web ad ep search pick s)) :
    ∀ (fuel : Nat) (s : SiteState), Q s →
      Q (crawlSiteLoop web ad ep search pick maxPages fuel s) := by
  intro fuel
  induction fuel with
  | zero => intro s h; exact h
  | succ n ih =>
    intro s h
    rw [crawlSiteLoop]
    split
    · exact h
    next hguard =>
      have hlt : s.collected.length < maxPages := by
        have hfalse : (s.pending.isEmpty || !decide (s.collected.length < maxPages))
            = false := eq_false_of_ne_true hguard
        rcases Bool.or_eq_false_iff.1 hfalse with ⟨_, h2⟩
        simpa using h2
      exact ih _ (hstep s hlt h)

/-- The loop body grows `crawled_pages` by at most one entry. -/
theorem siteStep_collected_le {P : Type} (web : String → Option (List String))
    (ad : List String) (ep : List P) (search : P → String → Bool)
    (pick : List String → Nat) (s : SiteState) :
    (siteStep web ad ep search pick s).collected.length ≤ s.collected.length + 1 := by
  unfold siteStep
  split
  · exact Nat.le_succ _
  · split
    · exact Nat.le_succ _
    · split
      · exact Nat.le_succ _
      · simp

/-- The loop body appends to the fetch log only URLs that pass the in-scope
test of lines 185-191. -/
theorem siteStep_fetchLog_scope {P : Type} (web : String → Option (List String))
    (ad : List String) (ep : List P) (search : P → String → Bool)
    (pick : List String → Nat) (s : SiteState)
    (h : ∀ u ∈ s.fetchLog, inScopeSite ad ep search u = true) :
    ∀ u ∈ (siteStep web ad ep search pick s).fetchLog,
      inScopeSite ad ep search u = true := by
  unfold siteStep
  split
  · exact h
  · split
    · exact h
    next hscope =>
      have hin : inScopeSite ad ep search (popUrl pick s.pending) = true := by
        simpa using hscope
      split
      · intro u hu
        rcases List.mem_append.1 hu with hu' | hu'
        · exact h u hu'
        · exact List.mem_singleton.1 hu' ▸ hin
      · intro u hu
        rcases List.mem_append.1 hu with hu' | hu'
        · exact h u hu'
        · exact List.mem_singleton.1 hu' ▸ hin

/-- The loop body adds a URL to `visited_urls` only after `crawl_page`
succeeded on it: a failed URL is never marked visited. -/
theorem siteStep_visited_success {P : Type} (web : String → Option (List String))
    (ad : List String) (ep : List P) (search : P → String → Bool)
    (pick : List String → Nat) (s : SiteState)
    (h : ∀ u ∈ s.visited, web u ≠ none) :
    ∀ u ∈ (siteStep web ad ep search pick s).visited, web u ≠ none := by
  unfold siteStep
  split
  · exact h
  · split
    · exact h
    · split
      · exact h
      next links hweb =>
        intro u hu
        rcases List.mem_append.1 hu with hu' | hu'
        · exact h u hu'
        · rw [List.mem_singleton.1 hu', hweb]
          exact fun hcontra => Option.noConfusion hcontra

/-! ## Helper lemmas about the paginated loop -/

/-- Scope facts that hold of every URL the paginated loop decided to follow:
its netloc contains an allowed domain and no exclusion pattern matches the
rendered URL. -/
def PagScope {P : Type} (allowedDomains : List String) (excludePatterns : List P)
    (search : P → String → Bool) (u : PUrl) : Prop :=
  (allowedDomains.any fun d => containsStr u.netloc d) = true ∧
    (excludePatterns.any fun p => search p (renderUrl u)) = false

/-- Page budget for the paginated loop: when `page_count` tracks the length
of `crawled_data` and is still below the budget, any result the loop returns
holds at most `maxPages` pages. -/
theorem crawlPagLoop_budget {P : Type} (fetch : PUrl → Option (List String))
    (pp : String) (ad : List String) (ep : List P) (search : P → String → Bool)
    (maxPages : Nat) :
    ∀ (fuel : Nat) (cur : PUrl) (pc : Nat) (acc : List (PUrl × List String))
      (log : List PUrl) (r : PagResult),
      acc.length = pc → pc < maxPages →
      crawlPagLoop fetch pp ad ep search maxPages fuel cur pc acc log = some r →
      r.collected.length ≤ maxPages := by
  intro fuel
  induction fuel with
  | zero =>
    intro cur pc acc log r hlen hlt heq
    rw [crawlPagLoop] at heq
    cases heq
    show acc.length ≤ maxPages
    omega
  | succ n ih =>
    intro cur pc acc log r hlen hlt heq
    rw [crawlPagLoop] at heq
    split at heq
    · cases heq
      show acc.length ≤ maxPages
      omega
    next elems _ =>
      split at heq
      · cases heq
        show acc.length ≤ maxPages
        omega
      · split at heq
        · cases heq
          show (acc ++ [(cur, elems)]).length ≤ maxPages
          simp only [List.length_append, List.length_cons, List.length_nil]
          omega
        next hbud =>
          split at heq
          · cases heq
          next nxt _ =>
            split at heq
            · split at heq
              · cases heq
                show (acc ++ [(cur, elems)]).length ≤ maxPages
                simp only [List.length_append, List.length_cons, List.length_nil]
                omega
              · refine ih nxt (pc + 1) _ _ r ?_ (by omega) heq
                simp only [List.length_append, List.length_cons, List.length_nil]
                omega
            · cases heq
              show (acc ++ [(cur, elems)]).length ≤ maxPages
              simp only [List.length_append, List.length_cons, List.length_nil]
              omega

/-- With fuel at least `maxPages + 1 - pageCount`, the paginated loop never
runs out of fuel: the artificial `fuelOut` stop is unreachable. -/
theorem crawlPagLoop_stop {P : Type} (fetch : PUrl → Option (List String))
    (pp : String) (ad : List String) (ep : List P) (search : P → String → Bool)
    (maxPages : Nat) :
    ∀ (fuel : Nat) (cur : PUrl) (pc : Nat) (acc : List (PUrl × List String))
      (log : List PUrl) (r : PagResult),
      maxPages + 1 ≤ fuel + pc → pc ≤ maxPages →
      crawlPagLoop fetch pp ad ep search maxPages fuel cur pc acc log = some r →
      r.stop ≠ StopReason.fuelOut := by
  intro fuel
  induction fuel with
  | zero =>
    intro cur pc acc log r hfuel hpc _
    omega
  | succ n ih =>
    intro cur pc acc log r hfuel hpc heq
    rw [crawlPagLoop] at heq
    split at heq
    · cases heq; simp
    · split at heq
      · cases heq; simp
      · split at heq
        · cases heq; simp
        next hbud =>
          split at heq
          · cases heq
          next nxt _ =>
            split at heq
            · split at heq
              · cases heq; simp
              · exact ih nxt (pc + 1) _ _ r (by omega) (by omega) heq
            · cases heq; simp

/-- Every URL the paginated loop fetched after the first one had passed the
domain and exclusion-pattern checks of lines 169-181. -/
theorem crawlPagLoop_scope {P : Type} (fetch : PUrl → Option (List String))
    (pp : String) (ad : List String) (ep : List P) (search : P → String → Bool)
    (maxPages : Nat) :
    ∀ (fuel : Nat) (cur : PUrl) (pc : Nat) (acc : List (PUrl × List String))
      (log : List PUrl) (r : PagResult),
      (∀ u ∈ log.drop 1, PagScope ad ep search u) →
      (log = [] ∨ PagScope ad ep search cur) →
      crawlPagLoop fetch pp ad ep search maxPages fuel cur pc acc log = some r →
      ∀ u ∈ r.fetchLog.drop 1, PagScope ad ep search u := by
  intro fuel
  induction fuel with
  | zero =>
    intro cur pc acc log r hlog _ heq
    rw [crawlPagLoop] at heq
    cases heq
    exact hlog
  | succ n ih =>
    intro cur pc acc log r hlog hcur heq
    have happend : ∀ u ∈ (log ++ [cur]).drop 1, PagScope ad ep search u := by
      cases log with
      | nil =>
        intro u hu
        simp at hu
      | cons a l =>
        intro u hu
        simp only [List.cons_append, List.drop_succ_cons, List.drop_zero] at hu
        rcases List.mem_append.1 hu with h1 | h1
        · exact hlog u (by simpa using h1)
        · rcases hcur with hnil | hok
          · exact absurd hnil (by simp)
          · exact List.mem_singleton.1 h1 ▸ hok
    rw [crawlPagLoop] at heq
    split at heq
    · cases heq; exact happend
    · split at heq
      · cases heq; exact happend
      · split at heq
        · cases heq; exact happend
        · split at heq
          · cases heq
          next nxt _ =>
            split at heq
            next hdom =>
              split at heq
              · cases heq; exact happend
              next hexc =>
                refine ih nxt (pc + 1) _ _ r happend (Or.inr ⟨hdom, ?_⟩) heq
                exact eq_false_of_ne_true hexc
            · cases heq; exact happend

/-! ## Helper lemmas about `make_request` -/

/-- Exhaustion shape of the `web_crawler.py` retry loop on an always-failing
endpoint, for any suffix `range' a b` of the attempt numbers. -/
theorem wcRequestLoop_fail (fetch : Nat → Option Nat)
    (hfail : ∀ i, fetch i = none) (maxRetries delay hdr pxy : Nat) :
    ∀ (b a : Nat), a + b = maxRetries →
      wcRequestLoop fetch maxRetries delay hdr pxy (List.range' a b) =
        ⟨b, (List.range' (a + 1) (b - 1)).map (fun n => delay * n),
          List.replicate b hdr, List.replicate b pxy, none⟩ := by
  intro b
  induction b with
  | zero => intro a _; rfl
  | succ b' ih =>
    intro a ha
    rw [List.range'_succ, wcRequestLoop, hfail a]
    cases b' with
    | zero =>
      rw [if_neg (by omega)]
      rfl
    | succ k =>
      rw [if_pos (by omega), ih (a + 1) (by omega)]
      simp [List.range'_succ, List.replicate_succ, Nat.add_sub_cancel]

/-- Exhaustion shape of the `get_data.py` retry loop on an always-failing
endpoint. -/
theorem gdRequestLoop_fail (fetch : Nat → Option Nat)
    (hfail : ∀ i, fetch i = none) (delay hdr pxy : Nat) :
    ∀ (b a : Nat),
      gdRequestLoop fetch delay hdr pxy (List.range' a b) =
        ⟨b, (List.range' (a + 1) b).map (fun n => delay * n),
          List.replicate b hdr, List.replicate b pxy, none⟩ := by
  intro b
  induction b with
  | zero => intro a; rfl
  | succ b' ih =>
    intro a
    rw [List.range'_succ, gdRequestLoop, hfail a, ih (a + 1)]
    show (⟨b' + 1, delay * (a + 1) :: (List.range' (a + 2) b').map (fun n => delay * n),
      hdr :: List.replicate b' hdr, pxy :: List.replicate b' pxy, none⟩ : ReqTrace) = _
    rw [List.range'_succ]
    simp [List.replicate_succ]

/-- The `web_crawler.py` retry loop reuses the same header and proxy draw on
every attempt, whatever the endpoint does. -/
theorem wcRequestLoop_draws (fetch : Nat → Option Nat)
    (maxRetries delay hdr pxy : Nat) :
    ∀ lst : List Nat,
      (wcRequestLoop fetch maxRetries delay hdr pxy lst).headerDraws =
        List.replicate (wcRequestLoop fetch maxRetries delay hdr pxy lst).attempts hdr ∧
      (wcRequestLoop fetch maxRetries delay hdr pxy lst).proxyDraws =
        List.replicate (wcRequestLoop fetch maxRetries delay hdr pxy lst).attempts pxy := by
  intro lst
  induction lst with
  | nil => exact ⟨rfl, rfl⟩
  | cons attempt rest ih =>
    rw [wcRequestLoop]
    cases fetch attempt with
    | some r => exact ⟨rfl, rfl⟩
    | none =>
      by_cases hc : attempt < maxRetries - 1
      · rw [if_pos hc]
        simp only [List.replicate_succ]
        exact ⟨by rw [ih.1], by rw [ih.2]⟩
      · rw [if_neg hc]
        exact ⟨rfl, rfl⟩

/-- The `get_data.py` retry loop likewise reuses one header and one proxy
draw for the whole call. -/
theorem gdRequestLoop_draws (fetch : Nat → Option Nat) (delay hdr pxy : Nat) :
    ∀ lst : List Nat,
      (gdRequestLoop fetch delay hdr pxy lst).headerDraws =
        List.replicate (gdRequestLoop fetch delay hdr pxy lst).attempts hdr ∧
      (gdRequestLoop fetch delay hdr pxy lst).proxyDraws =
        List.replicate (gdRequestLoop fetch delay hdr pxy lst).attempts pxy := by
  intro lst
  induction lst with
  | nil => exact ⟨rfl, rfl⟩
  | cons attempt rest ih =>
    rw [gdRequestLoop]
    cases fetch attempt with
    | some r => exact ⟨rfl, rfl⟩
    | none =>
      simp only [List.replicate_succ]
      exact ⟨by rw [ih.1], by rw [ih.2]⟩

/-! ## Helper lemmas about the query-string dictionary -/

theorem dictInsert_absent {m : List (String × String)} {k : String} (v : String)
    (h : ∀ p ∈ m, p.1 ≠ k) : dictInsert m k v = m ++ [(k, v)] := by
  unfold dictInsert
  rw [if_neg]
  intro hany
  rcases List.any_eq_true.1 hany with ⟨p, hp, hpk⟩
  exact h p hp (by simpa using hpk)

theorem dictInsert_present (m : List (String × String)) (k v : String)
    (h : ∃ p ∈ m, p.1 = k) :
    dictInsert m k v = m.map (fun p => if p.1 = k then (k, v) else p) := by
  unfold dictInsert
  rw [if_pos]
  rcases h with ⟨p, hp, hpk⟩
  exact List.any_eq_true.2 ⟨p, hp, by simpa using hpk⟩

theorem foldl_dictInsert_disjoint :
    ∀ (q m : List (String × String)),
      (q.map Prod.fst).Nodup →
      (∀ x ∈ m, ∀ y ∈ q, x.1 ≠ y.1) →
      q.foldl (fun acc p => dictInsert acc p.1 p.2) m = m ++ q := by
  intro q
  induction q with
  | nil => intro m _ _; simp
  | cons kv q' ih =>
    intro m hnd hdis
    have habs : ∀ p ∈ m, p.1 ≠ kv.1 :=
      fun p hp => hdis p hp kv (List.mem_cons_self kv q')
    show List.foldl _ (dictInsert m kv.1 kv.2) q' = m ++ kv :: q'
    rw [dictInsert_absent kv.2 habs, ih (m ++ [(kv.1, kv.2)])]
    · simp
    · exact (List.nodup_cons.1 (by simpa using hnd)).2
    · intro x hx y hy
      rcases List.mem_append.1 hx with hx' | hx'
      · exact hdis x hx' y (List.mem_cons_of_mem kv hy)
      · rw [List.mem_singleton.1 hx']
        have hkv : kv.1 ∉ q'.map Prod.fst :=
          (List.nodup_cons.1 (by simpa using hnd)).1
        exact fun hcontra => hkv (hcontra ▸ List.mem_map_of_mem Prod.fst hy)

/-- For a query whose keys are distinct (the situation the spec's
`ByParameter` contract describes), `dict(parse_qsl(...))` is the identity. -/
theorem buildDict_eq_self {q : List (String × String)}
    (h : (q.map Prod.fst).Nodup) : buildDict q = q := by
  unfold buildDict
  rw [foldl_dictInsert_disjoint q [] h]
  · simp
  · intro x hx
    exact absurd hx (List.not_mem_nil x)

/-! ## Claims -/

/-- C1: For every site crawl run of `crawl_site` and every paginated run of
`crawl_paginated_data`, with any link graph including cycles, the number of
collected pages never exceeds `maxPages` (for the paginated run under the
configuration surface's `maxPages ≥ 1`); in the scenario `maxPages = 3` with
a start page linking to itself and to 5 distinct pages, exactly 3 pages are
collected, the visited set has size 3, and no page is repeated. -/
theorem claim_c1_budget_respected :
    (∀ (P : Type) (web : String → Option (List String)) (ad : List String)
       (ep : List P) (search : P → String → Bool) (pick : List String → Nat)
       (maxPages fuel : Nat) (start : String),
       (crawl_site web ad ep search pick maxPages fuel start).collected.length
         ≤ maxPages) ∧
    (∀ (P : Type) (fetch : PUrl → Option (List String)) (pp : String)
       (ad : List String) (ep : List P) (search : P → String → Bool)
       (maxPages : Nat) (start : PUrl), 1 ≤ maxPages →
       pagCollectedLen
         (crawl_paginated_data fetch pp ad ep search maxPages start) ≤ maxPages) ∧
    ((crawl_site scenarioWeb ["s.com"] ([] : List String) searchNone pick0 3 20
        "http://s.com/").collected.length = 3 ∧
     ((crawl_site scenarioWeb ["s.com"] ([] : List String) searchNone pick0 3 20
        "http://s.com/").collected.map Prod.fst).Nodup ∧
     (crawl_site scenarioWeb ["s.com"] ([] : List String) searchNone pick0 3 20
        "http://s.com/").visited.length = 3) := by
  refine ⟨?_, ?_, by decide, by decide, by decide⟩
  · intro P web ad ep search pick maxPages fuel start
    exact crawlSiteLoop_preserves web ad ep search pick maxPages
      (fun s => s.collected.length ≤ maxPages)
      (fun s hlt _ => Nat.le_trans (siteStep_collected_le web ad ep search pick s) hlt)
      fuel (initSiteState start) (Nat.zero_le _)
  · intro P fetch pp ad ep search maxPages start hmax
    unfold crawl_paginated_data pagCollectedLen
    cases h : crawlPagLoop fetch pp ad ep search maxPages (maxPages + 1) start 0 [] [] with
    | none => simp
    | some r =>
      simpa using crawlPagLoop_budget fetch pp ad ep search maxPages
        (maxPages + 1) start 0 [] [] r rfl hmax h

/-- Witness for C1 at concrete inputs: the paginated budget at
`maxPages = 4` and the site budget in the cycle scenario. -/
theorem claim_c1_budget_respected_witness :
    pagCollectedLen (crawl_paginated_data fetchOneElem "page" ["s.com"]
      ([] : List String) searchNone 4 pagStartUrl) ≤ 4 ∧
    (crawl_site scenarioWeb ["s.com"] ([] : List String) searchNone pick0 3 20
      "http://s.com/").collected.length ≤ 3 :=
  ⟨claim_c1_budget_respected.2.1 String fetchOneElem "page" ["s.com"] []
      searchNone 4 pagStartUrl (by decide),
    claim_c1_budget_respected.1 String scenarioWeb ["s.com"] [] searchNone
      pick0 3 20 "http://s.com/"⟩

/-- C2: Throughout every sequence of Frontier steps in `crawl_site` (every
fuel bound observes the state after that many loop iterations), the visited
set and the pending set are disjoint — so a URL is in pending only while it
is not in visited — and no URL appears more than once among the source URLs
of the collected pages. -/
theorem claim_c2_frontier_invariants :
    ∀ (P : Type) (web : String → Option (List String)) (ad : List String)
      (ep : List P) (search : P → String → Bool) (pick : List String → Nat)
      (maxPages fuel : Nat) (start : String),
      (∀ u, u ∈ (crawlSiteLoop web ad ep search pick maxPages fuel
          (initSiteState start)).visited →
        u ∉ (crawlSiteLoop web ad ep search pick maxPages fuel
          (initSiteState start)).pending) ∧
      (∀ u, u ∈ (crawlSiteLoop web ad ep search pick maxPages fuel
          (initSiteState start)).pending →
        u ∉ (crawlSiteLoop web ad ep search pick maxPages fuel
          (initSiteState start)).visited) ∧
      ((crawlSiteLoop web ad ep search pick maxPages fuel
          (initSiteState start)).collected.map Prod.fst).Nodup := by
  intro P web ad ep search pick maxPages fuel start
  have h := crawlSiteLoop_inv web ad ep search pick maxPages fuel
    (initSiteState start) (initSiteState_inv start)
  exact ⟨h.2.1, fun u hp hv => h.2.1 u hv hp, h.2.2.1⟩

/-- Witness for C2 at the cycle scenario: the start URL, being visited, is
no longer pending, and the collected source URLs are distinct. -/
theorem claim_c2_frontier_invariants_witness :
    "http://s.com/" ∉ (crawlSiteLoop scenarioWeb ["s.com"] ([] : List String)
      searchNone pick0 3 20 (initSiteState "http://s.com/")).pending ∧
    ((crawlSiteLoop scenarioWeb ["s.com"] ([] : List String) searchNone pick0
      3 20 (initSiteState "http://s.com/")).collected.map Prod.fst).Nodup :=
  ⟨(claim_c2_frontier_invariants String scenarioWeb ["s.com"] [] searchNone
      pick0 3 20 "http://s.com/").1 "http://s.com/" (by decide),
    (claim_c2_frontier_invariants String scenarioWeb ["s.com"] [] searchNone
      pick0 3 20 "http://s.com/").2.2⟩

/-- C3 counterexample: `crawl_site` tests the allowed-domain substrings
against the FULL URL string, not against its host: the URL
`http://evil.com/a?x=example.com` is accepted by the code although its host
`evil.com` contains no allowed domain, so the claimed iff is false. -/
theorem claim_c3_counterexample :
    inScopeSite ["example.com"] ([] : List String) searchNone
      "http://evil.com/a?x=example.com" = true ∧
    (["example.com"].any fun d =>
      containsStr (urlHost "http://evil.com/a?x=example.com") d) = false ∧
    inScopeSpec ["example.com"] ([] : List String) searchNone
      "http://evil.com/a?x=example.com" = false := by decide

/-- C3 amended: every URL `crawl_site` fetches has an allowed domain as a
substring of the FULL URL string and matches no exclusion pattern under
regex search on the full URL; in `crawl_paginated_data` the allowed-domain
substring test is instead applied to the netloc of each followed URL (every
fetched URL after the start URL), with exclusion patterns searched in the
full URL string in both. -/
theorem claim_c3_scope_semantics :
    (∀ (P : Type) (web : String → Option (List String)) (ad : List String)
       (ep : List P) (search : P → String → Bool) (pick : List String → Nat)
       (maxPages fuel : Nat) (start : String) (u : String),
       u ∈ (crawl_site web ad ep search pick maxPages fuel start).fetchLog →
       (ad.any fun d => containsStr u d) = true ∧
       (ep.any fun p => search p u) = false) ∧
    (∀ (P : Type) (fetch : PUrl → Option (List String)) (pp : String)
       (ad : List String) (ep : List P) (search : P → String → Bool)
       (maxPages : Nat) (start : PUrl) (r : PagResult) (u : PUrl),
       crawl_paginated_data fetch pp ad ep search maxPages start = some r →
       u ∈ r.fetchLog.drop 1 →
       (ad.any fun d => containsStr u.netloc d) = true ∧
       (ep.any fun p => search p (renderUrl u)) = false) := by
  constructor
  · intro P web ad ep search pick maxPages fuel start u hu
    have h := crawlSiteLoop_preserves web ad ep search pick maxPages
      (fun s => ∀ x ∈ s.fetchLog, inScopeSite ad ep search x = true)
      (fun s _ hq => siteStep_fetchLog_scope web ad ep search pick s hq)
      fuel (initSiteState start)
      (fun x hx => absurd hx (List.not_mem_nil x)) u hu
    unfold inScopeSite at h
    rw [Bool.and_eq_true] at h
    exact ⟨h.1, by simpa using h.2⟩
  · intro P fetch pp ad ep search maxPages start r u hr hu
    exact crawlPagLoop_scope fetch pp ad ep search maxPages (maxPages + 1)
      start 0 [] [] r (by intro x hx; simp at hx) (Or.inl rfl) hr u hu

/-- Witness for C3 amended: a fetched URL of the scenario run passes the
full-URL-substring domain test. -/
theorem claim_c3_scope_semantics_witness :
    (["s.com"].any fun d => containsStr "http://s.com/1" d) = true ∧
    (([] : List String).any fun p => searchNone p "http://s.com/1") = false :=
  claim_c3_scope_semantics.1 String scenarioWeb ["s.com"] [] searchNone pick0
    3 20 "http://s.com/" "http://s.com/1" (by decide)

/-- C4: Against an endpoint whose every attempt fails at transport level,
both `make_request` variants make exactly `maxRetries` attempts, the sleep
inserted after the Nth failed attempt equals `baseDelay * N` (the
`web_crawler.py` variant sleeps after attempts `1 .. maxRetries-1`, the
`get_data.py` variant after every attempt), and the final result is the
failure value `None` returned to the caller, not a raised exception. -/
theorem claim_c4_retry_exhaustion :
    ∀ (rand : Nat → Nat) (fetch : Nat → Option Nat) (maxRetries delay : Nat),
      (∀ i, fetch i = none) →
      ((make_request_wc rand fetch maxRetries delay).attempts = maxRetries ∧
       (make_request_wc rand fetch maxRetries delay).result = none ∧
       (make_request_wc rand fetch maxRetries delay).sleeps =
         (List.range' 1 (maxRetries - 1)).map (fun n => delay * n)) ∧
      ((make_request_gd rand fetch maxRetries delay).attempts = maxRetries ∧
       (make_request_gd rand fetch maxRetries delay).result = none ∧
       (make_request_gd rand fetch maxRetries delay).sleeps =
         (List.range' 1 maxRetries).map (fun n => delay * n)) := by
  intro rand fetch maxRetries delay hfail
  unfold make_request_wc make_request_gd
  rw [List.range_eq_range',
    wcRequestLoop_fail fetch hfail maxRetries delay (rand 0) (rand 1) maxRetries 0
      (by omega),
    gdRequestLoop_fail fetch hfail delay (rand 0) (rand 1) maxRetries 0]
  exact ⟨⟨rfl, rfl, rfl⟩, rfl, rfl, rfl⟩

/-- Witness for C4: `maxRetries = 3`, `baseDelay = 2`, always failing: 3
attempts, sleeps `[2, 4]` (wc) and `[2, 4, 6]` (gd), result `None`. -/
theorem claim_c4_retry_exhaustion_witness :
    ((make_request_wc id failingEndpoint 3 2).attempts = 3 ∧
     (make_request_wc id failingEndpoint 3 2).result = none ∧
     (make_request_wc id failingEndpoint 3 2).sleeps =
       (List.range' 1 (3 - 1)).map (fun n => 2 * n)) ∧
    ((make_request_gd id failingEndpoint 3 2).attempts = 3 ∧
     (make_request_gd id failingEndpoint 3 2).result = none ∧
     (make_request_gd id failingEndpoint 3 2).sleeps =
       (List.range' 1 3).map (fun n => 2 * n)) :=
  claim_c4_retry_exhaustion id failingEndpoint 3 2 (fun _ => rfl)

/-- C5 counterexample: headers are NOT freshly randomized per attempt.  With
the identity random stream and two failing attempts, both attempts of
`make_request` use the draw taken before the loop (`[0, 0]`), whereas
per-attempt fresh draws would be `[0, 1]`. -/
theorem claim_c5_counterexample :
    (make_request_wc id failingEndpoint 2 1).attempts = 2 ∧
    (make_request_wc id failingEndpoint 2 1).headerDraws = [0, 0] ∧
    freshHeaderDraws id 2 = [0, 1] ∧
    (make_request_wc id failingEndpoint 2 1).headerDraws ≠ freshHeaderDraws id 2 ∧
    (make_request_gd id failingEndpoint 2 1).headerDraws = [0, 0] ∧
    (make_request_gd id failingEndpoint 2 1).headerDraws ≠ freshHeaderDraws id 2 := by
  refine ⟨rfl, rfl, rfl, ?_, rfl, ?_⟩ <;> decide

/-- C5 amended: both `make_request` variants randomize the header set and
the proxy only once, before the retry loop, and reuse that same draw on
every attempt of the call. -/
theorem claim_c5_randomization_once_per_call :
    ∀ (rand : Nat → Nat) (fetch : Nat → Option Nat) (maxRetries delay : Nat),
      (make_request_wc rand fetch maxRetries delay).headerDraws =
        List.replicate (make_request_wc rand fetch maxRetries delay).attempts (rand 0) ∧
      (make_request_wc rand fetch maxRetries delay).proxyDraws =
        List.replicate (make_request_wc rand fetch maxRetries delay).attempts (rand 1) ∧
      (make_request_gd rand fetch maxRetries delay).headerDraws =
        List.replicate (make_request_gd rand fetch maxRetries delay).attempts (rand 0) ∧
      (make_request_gd rand fetch maxRetries delay).proxyDraws =
        List.replicate (make_request_gd rand fetch maxRetries delay).attempts (rand 1) := by
  intro rand fetch maxRetries delay
  refine ⟨?_, ?_, ?_, ?_⟩
  · exact (wcRequestLoop_draws fetch maxRetries delay (rand 0) (rand 1) _).1
  · exact (wcRequestLoop_draws fetch maxRetries delay (rand 0) (rand 1) _).2
  · exact (gdRequestLoop_draws fetch delay (rand 0) (rand 1) _).1
  · exact (gdRequestLoop_draws fetch delay (rand 0) (rand 1) _).2

/-- C6: parameter-driven pagination reads the named query parameter of the
current URL (defaulting to 1 when absent), increments it by one, and
re-encodes the query so every other parameter keeps its value and its
original relative position (with the target key updated in place, or
appended when absent); in the scenario starting from `?page=1&x=y`, after 3
successful steps the 4th fetched URL carries `page=4` with `x=y` unchanged
and in its original position. -/
theorem claim_c6_param_pagination :
    (∀ (u : PUrl) (pp v : String) (n : Nat),
       (u.query.map Prod.fst).Nodup →
       (u.query.find? (fun p => p.1 = pp) = some (pp, v) → strToNat? v = some n →
         nextPageUrl pp u = some { u with query := u.query.map (fun p =>
           if p.1 = pp then (pp, toString (n + 1)) else p) }) ∧
       (u.query.find? (fun p => p.1 = pp) = none →
         nextPageUrl pp u = some { u with query := u.query ++ [(pp, "2")] })) ∧
    ((crawl_paginated_data fetchOneElem "page" ["s.com"] ([] : List String)
        searchNone 4 pagStartUrl).map (fun r => r.fetchLog.length) = some 4 ∧
     (crawl_paginated_data fetchOneElem "page" ["s.com"] ([] : List String)
        searchNone 4 pagStartUrl).map
          (fun r => (r.fetchLog.getD 3 pagStartUrl).query) =
       some [("page", "4"), ("x", "y")]) := by
  refine ⟨?_, by decide, by decide⟩
  intro u pp v n hnd
  constructor
  · intro hfind htonat
    unfold nextPageUrl
    rw [buildDict_eq_self hnd, hfind]
    show (match strToNat? v with
      | none => none
      | some n => some { u with query := dictInsert u.query pp (toString (n + 1)) })
      = _
    rw [htonat]
    show some { u with query := dictInsert u.query pp (toString (n + 1)) } = _
    rw [dictInsert_present u.query pp (toString (n + 1))
      ⟨(pp, v), List.mem_of_find?_eq_some hfind, rfl⟩]
  · intro hfind
    unfold nextPageUrl
    rw [buildDict_eq_self hnd, hfind,
      dictInsert_absent (toString (1 + 1)) (fun p hp => by
        have := List.find?_eq_none.1 hfind p hp
        simpa using this)]
    show some { u with query := u.query ++ [(pp, toString (1 + 1))] } = _
    have h2 : (toString (1 + 1) : String) = "2" := by decide
    rw [h2]

/-- Witness for C6: one concrete increment step — `?page=1&x=y` steps to
`?page=2&x=y` with `x=y` untouched and in place. -/
theorem claim_c6_param_pagination_witness :
    nextPageUrl "page" pagStartUrl = some { pagStartUrl with query := pagStartUrl.query.map (fun p =>
        if p.1 = "page" then ("page", toString (1 + 1)) else p) } :=
  (claim_c6_param_pagination.1 pagStartUrl "page" "1" 1 (by decide)).1
    (by decide) (by decide)

/-- C7 counterexample: the parameter-driven paginated crawl DOES stop of its
own accord when the data selector matches no element: with every fetch
succeeding, budget 10 not reached and nothing rejected by scope, the run
stops after 0 collected pages with the `noData` stop. -/
theorem claim_c7_counterexample :
    crawl_paginated_data fetchNoElem "page" ["s.com"] ([] : List String)
      searchNone 10 pagStartUrl =
      some ⟨[], [pagStartUrl], StopReason.noData⟩ ∧
    fetchNoElem pagStartUrl ≠ none ∧
    StopReason.noData ≠ StopReason.budget ∧
    StopReason.noData ≠ StopReason.fetchFail ∧
    StopReason.noData ≠ StopReason.offDomain ∧
    StopReason.noData ≠ StopReason.excluded ∧
    (0 : Nat) < 10 := by decide

/-- C7 amended: a parameter-driven paginated run stops only for one of five
reasons: a fetch failure, the data selector matching no elements, the page
budget, the next URL leaving the allowed domains, or the next URL matching
an exclusion pattern (and a non-integer page value aborts the run with no
result at all); it never stops for lack of a next URL. -/
theorem claim_c7_stop_conditions :
    ∀ (P : Type) (fetch : PUrl → Option (List String)) (pp : String)
      (ad : List String) (ep : List P) (search : P → String → Bool)
      (maxPages : Nat) (start : PUrl) (r : PagResult),
      crawl_paginated_data fetch pp ad ep search maxPages start = some r →
      r.stop = StopReason.fetchFail ∨ r.stop = StopReason.noData ∨
      r.stop = StopReason.budget ∨ r.stop = StopReason.offDomain ∨
      r.stop = StopReason.excluded := by
  intro P fetch pp ad ep search maxPages start r hr
  have h := crawlPagLoop_stop fetch pp ad ep search maxPages (maxPages + 1)
    start 0 [] [] r (by omega) (by omega) hr
  cases hs : r.stop <;> simp_all

/-- Witness for C7 amended at the `noData` run. -/
theorem claim_c7_stop_conditions_witness :
    (⟨[], [pagStartUrl], StopReason.noData⟩ : PagResult).stop =
        StopReason.fetchFail ∨
      (⟨[], [pagStartUrl], StopReason.noData⟩ : PagResult).stop =
        StopReason.noData ∨
      (⟨[], [pagStartUrl], StopReason.noData⟩ : PagResult).stop =
        StopReason.budget ∨
      (⟨[], [pagStartUrl], StopReason.noData⟩ : PagResult).stop =
        StopReason.offDomain ∨
      (⟨[], [pagStartUrl], StopReason.noData⟩ : PagResult).stop =
        StopReason.excluded :=
  claim_c7_stop_conditions String fetchNoElem "page" ["s.com"] [] searchNone
    10 pagStartUrl ⟨[], [pagStartUrl], StopReason.noData⟩ (by decide)

/-- C8 counterexample: a URL whose fetch failed CAN be fetched again in the
same run.  In the `refetchWeb` scenario, `a` fails, is rediscovered through
`b`, and appears twice in the fetch log — yet the run continued and still
collected 2 pages. -/
theorem claim_c8_counterexample :
    (crawl_site refetchWeb ["s.com"] ([] : List String) searchNone pick0 10 20
      "http://s.com/").fetchLog.count "http://s.com/a" = 2 ∧
    refetchWeb "http://s.com/a" = none ∧
    (crawl_site refetchWeb ["s.com"] ([] : List String) searchNone pick0 10 20
      "http://s.com/").collected.length = 2 := by decide

/-- C8 amended: on a fetch failure `crawl_site` continues the run — the
failed URL is merely dropped from pending and logged, with visited and
collected unchanged — but it is NOT added to visited, so every visited URL
has a successful fetch and a failed URL can be fetched again when a later
page links to it. -/
theorem claim_c8_failure_handling :
    (∀ (P : Type) (web : String → Option (List String)) (ad : List String)
       (ep : List P) (search : P → String → Bool) (pick : List String → Nat)
       (s : SiteState),
       popUrl pick s.pending ∉ s.visited →
       inScopeSite ad ep search (popUrl pick s.pending) = true →
       web (popUrl pick s.pending) = none →
       siteStep web ad ep search pick s =
         { s with pending := popRest pick s.pending
                  fetchLog := s.fetchLog ++ [popUrl pick s.pending] }) ∧
    (∀ (P : Type) (web : String → Option (List String)) (ad : List String)
       (ep : List P) (search : P → String → Bool) (pick : List String → Nat)
       (maxPages fuel : Nat) (start : String) (u : String),
       u ∈ (crawl_site web ad ep search pick maxPages fuel start).visited →
       web u ≠ none) := by
  constructor
  · intro P web ad ep search pick s hvis hscope hweb
    unfold siteStep
    rw [if_neg hvis, if_neg (by rw [hscope]; simp), hweb]
  · intro P web ad ep search pick maxPages fuel start u hu
    exact crawlSiteLoop_preserves web ad ep search pick maxPages
      (fun s => ∀ x ∈ s.visited, web x ≠ none)
      (fun s _ hq => siteStep_visited_success web ad ep search pick s hq)
      fuel (initSiteState start)
      (fun x hx => absurd hx (List.not_mem_nil x)) u hu

/-- Witness for C8 amended at the refetch scenario: the start URL is
visited, so its fetch succeeded. -/
theorem claim_c8_failure_handling_witness :
    refetchWeb "http://s.com/" ≠ none :=
  claim_c8_failure_handling.2 String refetchWeb ["s.com"] [] searchNone pick0
    10 20 "http://s.com/" "http://s.com/" (by decide)

/-- C9 counterexample: `save_results` with an unsupported format raises only
AFTER creating the output directory: the I/O trace is not empty. -/
theorem claim_c9_counterexample :
    (save_results "out" "xml" "ts").1 = [IoOp.mkdirOp "out"] ∧
    (save_results "out" "xml" "ts").2 =
      Except.error "Unsupported output format: xml" ∧
    [IoOp.mkdirOp "out"] ≠ ([] : List IoOp) :=
  ⟨rfl, rfl, by decide⟩

/-- C9 amended: for every format other than `json` and `csv`, `save_results`
raises a `ValueError` and writes no file — but only after the output
directory has already been created. -/
theorem claim_c9_unsupported_format :
    ∀ (dir fmt ts : String), fmt ≠ "json" → fmt ≠ "csv" →
      save_results dir fmt ts =
        ([IoOp.mkdirOp dir], Except.error ("Unsupported output format: " ++ fmt)) ∧
      ∀ f, IoOp.writeOp f ∉ (save_results dir fmt ts).1 := by
  intro dir fmt ts hjson hcsv
  unfold save_results
  rw [if_neg hjson, if_neg hcsv]
  refine ⟨rfl, ?_⟩
  intro f hf
  rw [List.mem_singleton] at hf
  exact IoOp.noConfusion hf

/-- Witness for C9 amended at format `xml`. -/
theorem claim_c9_unsupported_format_witness :
    save_results "out" "xml" "ts" =
      ([IoOp.mkdirOp "out"], Except.error ("Unsupported output format: " ++ "xml")) ∧
    ∀ f, IoOp.writeOp f ∉ (save_results "out" "xml" "ts").1 :=
  claim_c9_unsupported_format "out" "xml" "ts" (by decide) (by decide)

/-- C10 counterexample: a transport failure and a parse failure yield the
very same outcome `None` from `crawl_page` — the caller cannot tell them
apart from the returned value, so the two failure kinds are NOT reported
distinctly. -/
theorem claim_c10_counterexample :
    crawl_page "http://s.com/x" none (fun _ => some ⟨"t", []⟩) (fun _ l => l) =
      crawl_page "http://s.com/x" (some "<html") (fun _ => none) (fun _ l => l) ∧
    crawl_page "http://s.com/x" none (fun _ => some ⟨"t", []⟩) (fun _ l => l) =
      none :=
  ⟨rfl, rfl⟩

/-- C10 amended: `crawl_page` returns `None` both when the transport fails
(after exhausted retries) and when parsing the body fails; the two failure
kinds coincide in the returned value and are distinguished only in log
output. -/
theorem claim_c10_failures_conflated :
    ∀ (url body : String) (parse parse' : String → Option ParsedDoc)
      (join : String → String → String),
      parse' body = none →
      crawl_page url none parse join = none ∧
      crawl_page url (some body) parse' join = none ∧
      crawl_page url none parse join = crawl_page url (some body) parse' join := by
  intro url body parse parse' join hparse
  have h2 : crawl_page url (some body) parse' join = none := by
    unfold crawl_page
    show (match parse' body with
      | none => none
      | some doc =>
        some (⟨url, doc.title, doc.links.map (join url)⟩ : PageInfo))
      = none
    rw [hparse]
  exact ⟨rfl, h2, h2.symm⟩

/-- Witness for C10 amended at a concrete failing parse. -/
theorem claim_c10_failures_conflated_witness :
    crawl_page "http://s.com/x" none (fun _ => none) (fun _ l => l) = none ∧
    crawl_page "http://s.com/x" (some "<p") (fun _ => none) (fun _ l => l) = none ∧
    crawl_page "http://s.com/x" none (fun _ => none) (fun _ l => l) =
      crawl_page "http://s.com/x" (some "<p") (fun _ => none) (fun _ l => l) :=
  claim_c10_failures_conflated "http://s.com/x" "<p" (fun _ => none)
    (fun _ => none) (fun _ l => l) rfl

end DataSecurity
